import Mathlib

/-!
# Origin-stream relay (`stream.go`)

A shallow embedding of `streamOriginImage` and the pieces of the Go standard
library it leans on (`net/http.Header`, `http.ResponseWriter.WriteHeader`,
`path/filepath.Ext`, `io.CopyBuffer`),
followed by the properties of the relay that are stated in the specification.

Go strings are modelled as Lean strings, byte slices as lists of naturals,
Go `int`/`int64` as `Int` (with an explicit 64-bit wrap where a conversion
happens), and a `panic` as an explicit exit value.
-/

namespace Stream

/-! ## `net/http.Header` -/

/-- The punctuation bytes allowed in a header field name, by code point:
`! # $ % &`, apostrophe, `* + - . ^ _`, backtick, `| ~`. -/
def tokenPunctuation : List Nat :=
  [33, 35, 36, 37, 38, 39, 42, 43, 45, 46, 94, 95, 96, 124, 126]

/-- Token bytes accepted in a header field name (`textproto.validHeaderFieldByte`). -/
def validHeaderFieldByte (c : Char) : Bool :=
  ('a' ≤ c && c ≤ 'z') || ('A' ≤ c && c ≤ 'Z') || ('0' ≤ c && c ≤ '9') ||
    tokenPunctuation.contains c.toNat

/-- Upper-case an ASCII lower-case letter (`c -= toLower`). -/
def upperByte (c : Char) : Char :=
  if 'a' ≤ c ∧ c ≤ 'z' then Char.ofNat (c.toNat - 32) else c

/-- Lower-case an ASCII upper-case letter (`c += toLower`). -/
def lowerByte (c : Char) : Char :=
  if 'A' ≤ c ∧ c ≤ 'Z' then Char.ofNat (c.toNat + 32) else c

/-- The canonicalising loop of `textproto.canonicalMIMEHeaderKey`: first letter
and every letter after a dash in upper case, every other letter in lower case. -/
def canonLoop : Bool → List Char → List Char
  | _, [] => []
  | upper, c :: cs =>
    let c1 := if upper then upperByte c else lowerByte c
    c1 :: canonLoop (c1 == '-') cs

/-- Model of `textproto.CanonicalMIMEHeaderKey`: a key holding a byte that is
not a header field byte is returned unchanged, any other key is canonicalised. -/
def canonicalMIMEHeaderKey (s : String) : String :=
  if s.data.all validHeaderFieldByte then String.mk (canonLoop true s.data) else s

/-- Model of `http.Header`, a Go `map[string][]string`: `none` is an absent key. -/
abbrev Header := String → Option (List String)

/-- Result of `make(http.Header)`. -/
def Header.empty : Header := fun _ => none

/-- Model of `Header.Values`: the slice stored under the canonical key, `nil` when absent. -/
def Header.Values (h : Header) (key : String) : List String :=
  (h (canonicalMIMEHeaderKey key)).getD []

/-- First element of a value slice, `""` for an empty one. -/
def firstValue : List String → String
  | [] => ""
  | v :: _ => v

/-- Model of `Header.Get`: the first value stored under the canonical key, or `""`. -/
def Header.Get (h : Header) (key : String) : String :=
  firstValue (h.Values key)

/-- Model of `Header.Set`: replaces whatever is stored under the canonical key by `[value]`. -/
def Header.Set (h : Header) (key value : String) : Header :=
  fun k => if k = canonicalMIMEHeaderKey key then some [value] else h k

/-! ## `path/filepath.Ext` -/

/-- The backwards scan of `filepath.Ext` over the reversed path: stops at the
first path separator, returns the suffix that starts at the last dot. -/
def extScan : List Char → List Char → List Char
  | [], _ => []
  | c :: rest, acc =>
    if c = '/' then []
    else if c = '.' then '.' :: acc
    else extScan rest (c :: acc)

/-- Model of `filepath.Ext`: the suffix of the last path element that starts at
its final dot, `""` when there is no dot. -/
def filepathExt (path : String) : String :=
  String.mk (extScan path.data.reverse [])

/-! ## Data model -/

/-- A byte of a response body. -/
abbrev Byte := Nat

/-- A non-nil Go `error` value. -/
abbrev Err := String

/-- The fields of `options.ProcessingOptions` that the relay reads. -/
structure ProcessingOptions where
  Filename : String
  ReturnAttachment : Bool
  deriving DecidableEq, Repr

/-- Modelled from the spec: the enumeration `imagetype.Type` is declared outside
`stream.go`; it has the value `Unknown` (the zero value of the type) plus one
variant per supported image format. -/
inductive ImageType where
  | Unknown | JPEG | PNG | WEBP | GIF | ICO | SVG | HEIC | AVIF | BMP | TIFF
  deriving DecidableEq, Repr

/-- The shared cookie jar handed to the request builder. -/
abbrev CookieJar := List String

/-- The inbound `*http.Request`, as far as the relay reads it. -/
structure Request where
  Header : Header

/-- The outbound request returned by `imagedata.BuildImageRequest`. -/
structure ImageRequest where
  url : String
  header : Header
  jar : Option CookieJar

/-- The origin body as the sequence of results of its `Read` method: every
element of `chunks` is returned with a nil error, then `last` is returned
together with `io.EOF` (`err = none`) or with the read error `err`. One element
is what one `Read` into the pool buffer of line 45 delivers, so it has at most
4096 bytes; nothing below depends on that bound. -/
structure Body where
  chunks : List (List Byte)
  last : List Byte
  err : Option Err

/-- The byte sequence the body delivers. -/
def Body.bytes (b : Body) : List Byte := b.chunks.flatten ++ b.last

/-- The origin `*http.Response`. -/
structure Response where
  StatusCode : Int
  Header : Header
  ContentLength : Int
  Body : Body

/-- What the client side has observed of an `http.ResponseWriter`: the header
map `rw.Header()`, every status line written by an accepted `WriteHeader` call
with the header map it committed, the number of `Write` calls and the bytes
accepted by them. -/
structure ResponseWriter where
  header : Header
  statusLines : List (Int × Header)
  writeCalls : Nat
  written : List Byte

/-- The record passed to `router.LogResponse`. -/
structure LogRecord where
  reqID : String
  status : Int
  err : Option Err
  image_url : String
  processing_options : ProcessingOptions
  deriving DecidableEq, Repr

/-- The value a `panic` carries out of the handler. -/
inductive PanicValue where
  | error (e : Err)
  | ErrAbortHandler
  | invalidWriteHeaderCode (code : Int)
  deriving DecidableEq, Repr

/-- How a call of the handler ends. -/
inductive Exit where
  | returned
  | panicked (v : PanicValue)
  deriving DecidableEq, Repr

/-- The collaborators of the relay, all defined outside `stream.go`. -/
structure Env where
  /-- The flag `config.CookiePassthrough`. -/
  CookiePassthrough : Bool
  /-- The builder `cookies.JarFromRequest`. -/
  JarFromRequest : Request → Except Err CookieJar
  /-- The builder `imagedata.BuildImageRequest`. -/
  BuildImageRequest : String → Header → Option CookieJar → Except Err ImageRequest
  /-- The sender `imagedata.SendRequest`. -/
  SendRequest : ImageRequest → Except Err Response
  /-- The lookup `imagetype.ByMime`. -/
  ByMime : String → ImageType
  /-- The table `imagetype.Types`, `none` for a key the map does not hold. -/
  Types : String → Option ImageType
  /-- The method `imagetype.Type.ContentDisposition`. -/
  ContentDisposition : ImageType → String → Bool → String
  /-- The method `imagetype.Type.ContentDispositionFromURL`. -/
  ContentDispositionFromURL : ImageType → String → Bool → String
  /-- The parser `url.Parse`, giving the `Path` of the URL when it parses. -/
  urlParse : String → Option String
  /-- The lookup `mime.TypeByExtension`, `""` when there is no mapping. -/
  TypeByExtension : String → String
  /-- The effect of `setCacheControl` on the header map, given the two origin values. -/
  setCacheControl : Header → String → String → Header
  /-- The effect of `setCanonical` on the header map. -/
  setCanonical : Header → String → Header
  /-- The client connection: the result `(nw, ew)` of the `i`-th `Write` of `p`. -/
  clientWrite : Nat → List Byte → Int × Option Err

/-- The observable state around one relay call. -/
structure Sys where
  /-- The gauge behind `stats.IncImagesInProgress` / `stats.DecImagesInProgress`. -/
  imagesInProgress : Int
  incCalls : Nat
  decCalls : Nat
  segmentsStarted : Nat
  segmentsStopped : Nat
  /-- Arguments of every `imagedata.BuildImageRequest` call. -/
  built : List (String × Header × Option CookieJar)
  /-- Argument of every `imagedata.SendRequest` call. -/
  sent : List ImageRequest
  bodyCloses : Nat
  /-- Calls of `streamBufPool.Get` and `streamBufPool.Put`. -/
  bufGets : Nat
  bufPuts : Nat
  rw : ResponseWriter
  /-- Records emitted through `router.LogResponse`. -/
  logs : List LogRecord

/-! ## The relay -/

/-- The inbound-forward allow-list (lines 27-31). -/
def streamReqHeaders : List String :=
  ["If-None-Match", "Accept-Encoding", "Range"]

/-- The outbound-forward allow-list (lines 33-41). -/
def streamRespHeaders : List String :=
  ["Cache-Control", "Expires", "ETag", "Content-Type", "Content-Encoding",
    "Content-Range", "Accept-Ranges"]

/-- Go conversion `int(x)` of an `int64` on a 64-bit platform: wrap to 64 bits. -/
def goInt (x : Int) : Int := (x + 2 ^ 63) % 2 ^ 64 - 2 ^ 63

/-- Model of `strconv.Itoa`. -/
def Itoa (n : Int) : String := toString n

/-- Modelled from the spec: `checkErr` is defined outside `stream.go`. A nil
error lets the call go on with the value obtained; a non-nil error is surfaced
to the caller and terminates the session, here as a panic carrying the error. -/
def checkErr {α : Type} : Except Err α → Except PanicValue α
  | .ok a => .ok a
  | .error e => .error (PanicValue.error e)

/-- Lines 62-68: the header map built for the outbound request. -/
def imgRequestHeader (r : Request) : Header :=
  streamReqHeaders.foldl
    (fun h k => let v := r.Header.Get k; if v.length ≠ 0 then h.Set k v else h)
    Header.empty

/-- Lines 70-71: the cookie jar and error in hand when `checkErr` is reached;
the jar stays nil when `config.CookiePassthrough` is off. -/
def cookieJarResult (env : Env) (r : Request) : Except Err (Option CookieJar) :=
  if env.CookiePassthrough then (env.JarFromRequest r).map some else Except.ok none

/-- Lines 83-88: the passthrough loop over the response allow-list. -/
def passthrough (res : Response) (h : Header) : Header :=
  streamRespHeaders.foldl
    (fun h k => (res.Header.Values k).foldl (fun h v => h.Set k v) h) h

/-- Lines 90-92: the derived `Content-Length`. -/
def setContentLength (res : Response) (h : Header) : Header :=
  if res.ContentLength ≥ 0 then h.Set "Content-Length" (Itoa (goInt res.ContentLength)) else h

/-- Lines 95-109: the resolved image type and the header map after resolution. -/
def resolveImageType (env : Env) (imageURL : String) (h : Header) : ImageType × Header :=
  let mimetype := h.Get "Content-Type"
  if mimetype.length > 0 then
    (env.ByMime mimetype, h)
  else
    match env.urlParse imageURL with
    | none => (ImageType.Unknown, h)
    | some path =>
      let ext := filepathExt path
      if ext.length > 1 then
        let imgtype := (env.Types (ext.drop 1)).getD ImageType.Unknown
        let mimetype := env.TypeByExtension ext
        if mimetype.length > 0 then (imgtype, h.Set "Content-Type" mimetype) else (imgtype, h)
      else
        (ImageType.Unknown, h)

/-- Lines 111-116: the rendered `Content-Disposition` value. -/
def contentDisposition (env : Env) (po : ProcessingOptions) (imageURL : String)
    (imgtype : ImageType) : String :=
  if po.Filename.length > 0 then
    env.ContentDisposition imgtype po.Filename po.ReturnAttachment
  else
    env.ContentDispositionFromURL imgtype imageURL po.ReturnAttachment

/-- Lines 83-119: everything the relay itself does to the client header map
before the cache and canonical collaborators run. -/
def relayHeaders (env : Env) (res : Response) (po : ProcessingOptions) (imageURL : String)
    (h : Header) : Header :=
  let h := passthrough res h
  let h := setContentLength res h
  if res.StatusCode < 300 then
    let resolved := resolveImageType env imageURL h
    resolved.2.Set "Content-Disposition" (contentDisposition env po imageURL resolved.1)
  else
    h

/-- Lines 83-124: the relay's own headers followed by `setCacheControl`, which
is handed the `Cache-Control` and `Expires` values found on the map. -/
def cacheControlled (env : Env) (res : Response) (po : ProcessingOptions) (imageURL : String)
    (h : Header) : Header :=
  let h := relayHeaders env res po imageURL h
  env.setCacheControl h (h.Get "Cache-Control") (h.Get "Expires")

/-- Lines 83-125: the header map in place when `WriteHeader` is called, the
relay's own headers followed by `setCacheControl` and `setCanonical`. -/
def committedHeader (env : Env) (res : Response) (po : ProcessingOptions) (imageURL : String)
    (h : Header) : Header :=
  env.setCanonical (cacheControlled env res po imageURL h) imageURL

/-- Model of `rw.WriteHeader(code)` on the `net/http` response writer: a code
below 100 or above 999 panics (`invalid WriteHeader code`), any other code is
written as the status line together with the header map in place. -/
def WriteHeader (rw : ResponseWriter) (code : Int) : Except PanicValue ResponseWriter :=
  if code < 100 ∨ code > 999 then
    Except.error (PanicValue.invalidWriteHeaderCode code)
  else
    Except.ok { rw with statusLines := rw.statusLines ++ [(code, rw.header)] }

/-- The write half of one iteration of `io.CopyBuffer`: `dst.Write(buf[0:nr])`
and the checks on its result. -/
def writeChunk (cw : Nat → List Byte → Int × Option Err) (rw : ResponseWriter)
    (p : List Byte) : ResponseWriter × Option Err :=
  let res := cw rw.writeCalls p
  let rw1 : ResponseWriter :=
    { rw with writeCalls := rw.writeCalls + 1, written := rw.written ++ p.take res.1.toNat }
  let nr : Int := p.length
  let checked : Int × Option Err :=
    if res.1 < 0 ∨ nr < res.1 then (0, some (res.2.getD "invalid write result")) else res
  match checked.2 with
  | some e => (rw1, some e)
  | none => if nr ≠ checked.1 then (rw1, some "short write") else (rw1, none)

/-- The loop of `io.CopyBuffer` over the reads of the body: data is written
when `nr > 0`, a write error or a read error other than `io.EOF` ends the copy
with that error, `io.EOF` ends it with a nil error. -/
def copyLoop (cw : Nat → List Byte → Int × Option Err) (last : List Byte) (err : Option Err) :
    List (List Byte) → ResponseWriter → ResponseWriter × Option Err
  | [], rw =>
    let w := if last.length > 0 then writeChunk cw rw last else (rw, none)
    match w.2 with
    | some e => (w.1, some e)
    | none => (w.1, err)
  | p :: ps, rw =>
    let w := if p.length > 0 then writeChunk cw rw p else (rw, none)
    match w.2 with
    | some e => (w.1, some e)
    | none => copyLoop cw last err ps w.1

/-- Model of `io.CopyBuffer(rw, res.Body, *buf)` (line 132), returning the error. -/
def copyBuffer (cw : Nat → List Byte → Int × Option Err) (rw : ResponseWriter) (b : Body) :
    ResponseWriter × Option Err :=
  copyLoop cw b.last b.err b.chunks rw

/-- Lines 129-142, the part of the call that runs once the status line is
written; the deferred `streamBufPool.Put` of line 130 runs on both exits. -/
def streamBody (env : Env) (reqID : String) (po : ProcessingOptions) (imageURL : String)
    (res : Response) (s : Sys) : Sys × Exit :=
  let s := { s with bufGets := s.bufGets + 1 }
  let copied := copyBuffer env.clientWrite s.rw res.Body
  let s := { s with rw := copied.1 }
  let out : Sys × Exit :=
    match copied.2 with
    | some _ => (s, Exit.panicked PanicValue.ErrAbortHandler)
    | none =>
      ({ s with logs := s.logs ++ [⟨reqID, res.StatusCode, none, imageURL, po⟩] }, Exit.returned)
  ({ out.1 with bufPuts := out.1.bufPuts + 1 }, out.2)

/-- Lines 83-142, the part of the call that runs with an origin response in
hand: the header map is filled in, `WriteHeader` (line 127) writes the status
line or panics on the code, and only after an accepted `WriteHeader` are the
buffer taken and the body copied. -/
def relayResponse (env : Env) (reqID : String) (po : ProcessingOptions) (imageURL : String)
    (res : Response) (s : Sys) : Sys × Exit :=
  let h := committedHeader env res po imageURL s.rw.header
  let s := { s with rw := { s.rw with header := h } }
  match WriteHeader s.rw res.StatusCode with
  | .error p => (s, Exit.panicked p)
  | .ok rw => streamBody env reqID po imageURL res { s with rw := rw }

/-- Lines 57-142, the part of the call that runs after the two defers of
lines 53 and 55 are registered; the deferred `res.Body.Close` of line 81 runs
on every exit once a response was obtained. -/
def fetchAndRelay (env : Env) (reqID : String) (r : Request) (po : ProcessingOptions)
    (imageURL : String) (s : Sys) : Sys × Exit :=
  let hdr := imgRequestHeader r
  match checkErr (cookieJarResult env r) with
  | .error p => (s, Exit.panicked p)
  | .ok cookieJar =>
    let s := { s with built := s.built ++ [(imageURL, hdr, cookieJar)] }
    match checkErr (env.BuildImageRequest imageURL hdr cookieJar) with
    | .error p => (s, Exit.panicked p)
    | .ok req =>
      let s := { s with sent := s.sent ++ [req] }
      match checkErr (env.SendRequest req) with
      | .error p => (s, Exit.panicked p)
      | .ok res =>
        let out := relayResponse env reqID po imageURL res s
        ({ out.1 with bodyCloses := out.1.bodyCloses + 1 }, out.2)

/-- The handler `streamOriginImage` (lines 51-143): the counter increment and
the start of the metrics segment, the body of the call, then the two deferred
calls (segment stop, counter decrement) on every exit. -/
def streamOriginImage (env : Env) (reqID : String) (r : Request) (po : ProcessingOptions)
    (imageURL : String) (s : Sys) : Sys × Exit :=
  let s := { s with imagesInProgress := s.imagesInProgress + 1, incCalls := s.incCalls + 1 }
  let s := { s with segmentsStarted := s.segmentsStarted + 1 }
  let out := fetchAndRelay env reqID r po imageURL s
  let s := { out.1 with segmentsStopped := out.1.segmentsStopped + 1 }
  ({ s with imagesInProgress := s.imagesInProgress - 1, decCalls := s.decCalls + 1 }, out.2)

/-- The response writer as it stands after an accepted `WriteHeader` (line 127). -/
def afterWriteHeader (env : Env) (res : Response) (po : ProcessingOptions) (imageURL : String)
    (rw : ResponseWriter) : ResponseWriter :=
  { rw with
    header := committedHeader env res po imageURL rw.header,
    statusLines := rw.statusLines ++
      [(res.StatusCode, committedHeader env res po imageURL rw.header)] }

/-- The state in which the response part of the call starts. -/
def withCalls (s : Sys) (imageURL : String) (hdr : Header) (jar : Option CookieJar)
    (req : ImageRequest) : Sys :=
  { s with built := s.built ++ [(imageURL, hdr, jar)], sent := s.sent ++ [req] }

/-- The call gets as far as an origin response `res`: the cookie jar step, the
request construction and the send all come back without an error. -/
def Obtains (env : Env) (r : Request) (imageURL : String) (res : Response) : Prop :=
  ∃ jar req, cookieJarResult env r = Except.ok jar ∧
    env.BuildImageRequest imageURL (imgRequestHeader r) jar = Except.ok req ∧
    env.SendRequest req = Except.ok res

/-- The header names the relay itself may put on the client response: the
outbound-forward allow-list and the two derived names. -/
def relayRespNames : List String :=
  streamRespHeaders ++ ["Content-Length", "Content-Disposition"]

/-! ## Sample collaborators -/

/-- A sample origin response: status 200, `Content-Type: image/png`, a cookie,
length 3 and the body `ABC` delivered in two reads. -/
def sampleResponse : Response where
  StatusCode := 200
  Header := fun k =>
    if k = "Content-Type" then some ["image/png"]
    else if k = "Set-Cookie" then some ["id=1"]
    else none
  ContentLength := 3
  Body := ⟨[[65, 66]], [67], none⟩

/-- Sample collaborators around a given origin response and client connection. -/
def sampleEnv (res : Response) (cw : Nat → List Byte → Int × Option Err) : Env where
  CookiePassthrough := false
  JarFromRequest := fun _ => Except.ok []
  BuildImageRequest := fun url h jar => Except.ok ⟨url, h, jar⟩
  SendRequest := fun _ => Except.ok res
  ByMime := fun m =>
    if m = "image/png" then ImageType.PNG
    else if m = "image/jpeg" then ImageType.JPEG
    else ImageType.Unknown
  Types := fun e =>
    if e = "jpg" then some ImageType.JPEG
    else if e = "png" then some ImageType.PNG
    else none
  ContentDisposition := fun _ name att => (if att then "attachment; " else "inline; ") ++ name
  ContentDispositionFromURL := fun _ url att => (if att then "attachment; " else "inline; ") ++ url
  urlParse := fun u => if u = "http://origin.test/pic.jpg" then some "/pic.jpg" else none
  TypeByExtension := fun ext =>
    if ext = ".jpg" then "image/jpeg" else if ext = ".png" then "image/png" else ""
  setCacheControl := fun h cc ex =>
    if cc.length = 0 ∧ ex.length = 0 then h.Set "Cache-Control" "max-age=31536000, public" else h
  setCanonical := fun h _ => h
  clientWrite := cw

/-- A client connection that accepts every write in full. -/
def acceptAll : Nat → List Byte → Int × Option Err := fun _ p => (p.length, none)

/-- A client connection that went away: every write fails. -/
def disconnected : Nat → List Byte → Int × Option Err := fun _ _ => (0, some "broken pipe")

/-- A sample inbound request with one forwardable and one private header. -/
def sampleRequest : Request where
  Header := fun k =>
    if k = "Range" then some ["bytes=0-9"]
    else if k = "Authorization" then some ["secret"]
    else none

/-- A fresh state: nothing in flight, nothing written. -/
def freshSys : Sys where
  imagesInProgress := 0
  incCalls := 0
  decCalls := 0
  segmentsStarted := 0
  segmentsStopped := 0
  built := []
  sent := []
  bodyCloses := 0
  bufGets := 0
  bufPuts := 0
  rw := ⟨Header.empty, [], 0, []⟩
  logs := []

/-- An origin response whose `Content-Type` header has an empty value. -/
def emptyTypeResponse : Response where
  StatusCode := 200
  Header := fun k => if k = "Content-Type" then some [""] else none
  ContentLength := 3
  Body := ⟨[], [65, 66, 67], none⟩

/-- An origin response without any header. -/
def bareResponse : Response where
  StatusCode := 200
  Header := fun _ => none
  ContentLength := 3
  Body := ⟨[], [65, 66, 67], none⟩

/-- An origin error page: status 404, a text body. -/
def notFoundResponse : Response where
  StatusCode := 404
  Header := fun k => if k = "Content-Type" then some ["text/plain"] else none
  ContentLength := 9
  Body := ⟨[], [110, 111, 116, 32, 102, 111, 117, 110, 100], none⟩

/-- An origin response whose status line carries the code `000`. -/
def zeroStatusResponse : Response where
  StatusCode := 0
  Header := fun k => if k = "Content-Type" then some ["image/png"] else none
  ContentLength := 3
  Body := ⟨[], [65, 66, 67], none⟩

/-- An origin response that repeats `Content-Type`. -/
def repeatedTypeResponse : Response where
  StatusCode := 200
  Header := fun k => if k = "Content-Type" then some ["text/plain", "image/png"] else none
  ContentLength := -1
  Body := ⟨[], [], none⟩

/-- The sample processing options: no filename override, inline disposition. -/
def samplePO : ProcessingOptions := ⟨"", false⟩

/-- Sample collaborators whose cookie jar cannot be built. -/
def jarFailEnv : Env :=
  { sampleEnv sampleResponse acceptAll with
    CookiePassthrough := true
    JarFromRequest := fun _ => Except.error "bad cookie" }

/-! ## Header map lemmas -/

theorem canon_request_names :
    streamReqHeaders.map canonicalMIMEHeaderKey = ["If-None-Match", "Accept-Encoding", "Range"] := by
  decide

theorem canon_response_names :
    streamRespHeaders.map canonicalMIMEHeaderKey =
      ["Cache-Control", "Expires", "Etag", "Content-Type", "Content-Encoding",
        "Content-Range", "Accept-Ranges"] := by
  decide

theorem canon_content_length : canonicalMIMEHeaderKey "Content-Length" = "Content-Length" := by
  decide

theorem canon_content_disposition :
    canonicalMIMEHeaderKey "Content-Disposition" = "Content-Disposition" := by
  decide

theorem canon_content_type : canonicalMIMEHeaderKey "Content-Type" = "Content-Type" := by
  decide

theorem string_length_eq_zero (v : String) : v.length = 0 ↔ v = "" := by
  constructor
  · intro h
    have hd : v.data = [] := List.length_eq_zero.mp h
    exact String.ext hd
  · intro h
    subst h
    rfl

theorem set_set (h : Header) (k a b : String) : (h.Set k a).Set k b = h.Set k b := by
  funext x
  simp only [Header.Set]
  split <;> rfl

/-- The inner loop of the passthrough: nothing for an empty value list, otherwise
one `Set` with the last value. -/
theorem inner_loop (k : String) (vv : List String) (h : Header) :
    vv.foldl (fun h v => h.Set k v) h =
      match vv.getLast? with
      | none => h
      | some v => h.Set k v := by
  induction vv generalizing h with
  | nil => rfl
  | cons a rest ih =>
    rw [List.foldl_cons, ih]
    cases rest with
    | nil => rfl
    | cons b rest2 =>
      simp only [List.getLast?_cons_cons]
      cases hl : (b :: rest2).getLast? with
      | none => simp at hl
      | some v => simp [set_set]

/-- The passthrough loop over any list of names, key by key. -/
theorem passthrough_fold (src : Header) (names : List String) (h : Header) (x : String) :
    (names.foldl (fun h k => (src.Values k).foldl (fun h v => h.Set k v) h) h) x =
      if x ∈ names.map canonicalMIMEHeaderKey then
        match ((src x).getD []).getLast? with
        | none => h x
        | some v => some [v]
      else h x := by
  induction names generalizing h with
  | nil => simp
  | cons n rest ih =>
    rw [List.foldl_cons, ih, inner_loop]
    by_cases hx : x = canonicalMIMEHeaderKey n
    · subst hx
      simp only [List.map_cons, List.mem_cons, true_or, if_true, Header.Values]
      cases hl : ((src (canonicalMIMEHeaderKey n)).getD []).getLast? with
      | none => simp
      | some v => simp [Header.Set]
    · have hne : (match (src.Values n).getLast? with
          | none => h
          | some v => h.Set n v) x = h x := by
        cases (src.Values n).getLast? with
        | none => rfl
        | some v => simp [Header.Set, hx]
      simp only [List.map_cons, List.mem_cons, hx, false_or, hne]

theorem passthrough_apply (res : Response) (h : Header) (x : String) :
    (passthrough res h) x =
      if x ∈ streamRespHeaders.map canonicalMIMEHeaderKey then
        match ((res.Header x).getD []).getLast? with
        | none => h x
        | some v => some [v]
      else h x :=
  passthrough_fold res.Header streamRespHeaders h x

/-- The request header loop over any list of names, key by key. -/
theorem request_fold (src : Header) (names : List String) (h : Header) (x : String) :
    (names.foldl (fun h k => let v := src.Get k; if v.length ≠ 0 then h.Set k v else h) h) x =
      if x ∈ names.map canonicalMIMEHeaderKey ∧ (firstValue ((src x).getD [])).length ≠ 0 then
        some [firstValue ((src x).getD [])]
      else h x := by
  induction names generalizing h with
  | nil => simp
  | cons n rest ih =>
    rw [List.foldl_cons, ih]
    by_cases hx : x = canonicalMIMEHeaderKey n
    · subst hx
      by_cases hv : (firstValue ((src (canonicalMIMEHeaderKey n)).getD [])).length = 0
      · simp [Header.Get, Header.Values, hv]
      · simp [Header.Get, Header.Values, hv, Header.Set]
    · by_cases hv : (src.Get n).length = 0
      · simp [hv, hx]
      · simp [hv, hx, Header.Set]

theorem imgRequestHeader_apply (r : Request) (x : String) :
    (imgRequestHeader r) x =
      if x ∈ streamReqHeaders ∧ (firstValue ((r.Header x).getD [])).length ≠ 0 then
        some [firstValue ((r.Header x).getD [])]
      else none := by
  have h := request_fold r.Header streamReqHeaders Header.empty x
  rw [canon_request_names] at h
  exact h

theorem canon_request_fixed : ∀ k ∈ streamReqHeaders, canonicalMIMEHeaderKey k = k := by
  decide

/-! ## Control-flow lemmas -/

theorem relayResponse_valid (env : Env) (reqID : String) (po : ProcessingOptions)
    (imageURL : String) (res : Response) (s : Sys)
    (hlo : 100 ≤ res.StatusCode) (hhi : res.StatusCode ≤ 999) :
    relayResponse env reqID po imageURL res s =
      ({ s with
          rw := (copyBuffer env.clientWrite (afterWriteHeader env res po imageURL s.rw) res.Body).1,
          bufGets := s.bufGets + 1,
          bufPuts := s.bufPuts + 1,
          logs :=
            if (copyBuffer env.clientWrite (afterWriteHeader env res po imageURL s.rw)
                res.Body).2 = none
            then s.logs ++ [⟨reqID, res.StatusCode, none, imageURL, po⟩] else s.logs },
        if (copyBuffer env.clientWrite (afterWriteHeader env res po imageURL s.rw) res.Body).2 = none
        then Exit.returned else Exit.panicked PanicValue.ErrAbortHandler) := by
  have hok : ¬ (res.StatusCode < 100 ∨ res.StatusCode > 999) := by omega
  unfold relayResponse WriteHeader
  simp only [hok, if_false]
  unfold streamBody
  simp only []
  split <;> rename_i hc <;> simp only [afterWriteHeader] at * <;> simp [hc]

theorem relayResponse_invalid (env : Env) (reqID : String) (po : ProcessingOptions)
    (imageURL : String) (res : Response) (s : Sys)
    (hbad : res.StatusCode < 100 ∨ res.StatusCode > 999) :
    relayResponse env reqID po imageURL res s =
      ({ s with rw := { s.rw with header := committedHeader env res po imageURL s.rw.header } },
        Exit.panicked (PanicValue.invalidWriteHeaderCode res.StatusCode)) := by
  unfold relayResponse WriteHeader
  simp only [hbad, if_true]

theorem fetch_jar_error (env : Env) (reqID : String) (r : Request) (po : ProcessingOptions)
    (imageURL : String) (s : Sys) (e : Err) (hj : cookieJarResult env r = Except.error e) :
    fetchAndRelay env reqID r po imageURL s = (s, Exit.panicked (PanicValue.error e)) := by
  simp [fetchAndRelay, hj, checkErr]

theorem fetch_build_error (env : Env) (reqID : String) (r : Request) (po : ProcessingOptions)
    (imageURL : String) (s : Sys) (e : Err) (jar : Option CookieJar)
    (hj : cookieJarResult env r = Except.ok jar)
    (hb : env.BuildImageRequest imageURL (imgRequestHeader r) jar = Except.error e) :
    fetchAndRelay env reqID r po imageURL s =
      ({ s with built := s.built ++ [(imageURL, imgRequestHeader r, jar)] },
        Exit.panicked (PanicValue.error e)) := by
  simp [fetchAndRelay, hj, hb, checkErr]

theorem fetch_send_error (env : Env) (reqID : String) (r : Request) (po : ProcessingOptions)
    (imageURL : String) (s : Sys) (e : Err) (jar : Option CookieJar) (req : ImageRequest)
    (hj : cookieJarResult env r = Except.ok jar)
    (hb : env.BuildImageRequest imageURL (imgRequestHeader r) jar = Except.ok req)
    (hs : env.SendRequest req = Except.error e) :
    fetchAndRelay env reqID r po imageURL s =
      (withCalls s imageURL (imgRequestHeader r) jar req, Exit.panicked (PanicValue.error e)) := by
  simp [fetchAndRelay, hj, hb, hs, checkErr, withCalls]

theorem fetch_ok (env : Env) (reqID : String) (r : Request) (po : ProcessingOptions)
    (imageURL : String) (s : Sys) (jar : Option CookieJar) (req : ImageRequest) (res : Response)
    (hj : cookieJarResult env r = Except.ok jar)
    (hb : env.BuildImageRequest imageURL (imgRequestHeader r) jar = Except.ok req)
    (hs : env.SendRequest req = Except.ok res) :
    fetchAndRelay env reqID r po imageURL s =
      ({ (relayResponse env reqID po imageURL res
            (withCalls s imageURL (imgRequestHeader r) jar req)).1 with
          bodyCloses := (relayResponse env reqID po imageURL res
            (withCalls s imageURL (imgRequestHeader r) jar req)).1.bodyCloses + 1 },
        (relayResponse env reqID po imageURL res
          (withCalls s imageURL (imgRequestHeader r) jar req)).2) := by
  simp [fetchAndRelay, hj, hb, hs, checkErr, withCalls]

/-- The whole effect of a call that obtains the origin response `res` when
`WriteHeader` accepts its status code. -/
theorem stream_obtained (env : Env) (reqID : String) (r : Request) (po : ProcessingOptions)
    (imageURL : String) (s : Sys) (jar : Option CookieJar) (req : ImageRequest) (res : Response)
    (hj : cookieJarResult env r = Except.ok jar)
    (hb : env.BuildImageRequest imageURL (imgRequestHeader r) jar = Except.ok req)
    (hs : env.SendRequest req = Except.ok res)
    (hlo : 100 ≤ res.StatusCode) (hhi : res.StatusCode ≤ 999) :
    streamOriginImage env reqID r po imageURL s =
      ({ imagesInProgress := s.imagesInProgress + 1 - 1,
         incCalls := s.incCalls + 1,
         decCalls := s.decCalls + 1,
         segmentsStarted := s.segmentsStarted + 1,
         segmentsStopped := s.segmentsStopped + 1,
         built := s.built ++ [(imageURL, imgRequestHeader r, jar)],
         sent := s.sent ++ [req],
         bodyCloses := s.bodyCloses + 1,
         bufGets := s.bufGets + 1,
         bufPuts := s.bufPuts + 1,
         rw := (copyBuffer env.clientWrite (afterWriteHeader env res po imageURL s.rw) res.Body).1,
         logs :=
           if (copyBuffer env.clientWrite (afterWriteHeader env res po imageURL s.rw)
               res.Body).2 = none
           then s.logs ++ [⟨reqID, res.StatusCode, none, imageURL, po⟩] else s.logs },
        if (copyBuffer env.clientWrite (afterWriteHeader env res po imageURL s.rw) res.Body).2 = none
        then Exit.returned else Exit.panicked PanicValue.ErrAbortHandler) := by
  simp only [streamOriginImage]
  rw [fetch_ok env reqID r po imageURL _ jar req res hj hb hs,
    relayResponse_valid env reqID po imageURL res _ hlo hhi]
  rfl

/-- The whole effect of a call that obtains the origin response `res` when
`WriteHeader` panics on its status code. -/
theorem stream_obtained_invalid (env : Env) (reqID : String) (r : Request)
    (po : ProcessingOptions) (imageURL : String) (s : Sys) (jar : Option CookieJar)
    (req : ImageRequest) (res : Response)
    (hj : cookieJarResult env r = Except.ok jar)
    (hb : env.BuildImageRequest imageURL (imgRequestHeader r) jar = Except.ok req)
    (hs : env.SendRequest req = Except.ok res)
    (hbad : res.StatusCode < 100 ∨ res.StatusCode > 999) :
    streamOriginImage env reqID r po imageURL s =
      ({ imagesInProgress := s.imagesInProgress + 1 - 1,
         incCalls := s.incCalls + 1,
         decCalls := s.decCalls + 1,
         segmentsStarted := s.segmentsStarted + 1,
         segmentsStopped := s.segmentsStopped + 1,
         built := s.built ++ [(imageURL, imgRequestHeader r, jar)],
         sent := s.sent ++ [req],
         bodyCloses := s.bodyCloses + 1,
         bufGets := s.bufGets,
         bufPuts := s.bufPuts,
         rw := { s.rw with header := committedHeader env res po imageURL s.rw.header },
         logs := s.logs },
        Exit.panicked (PanicValue.invalidWriteHeaderCode res.StatusCode)) := by
  simp only [streamOriginImage]
  rw [fetch_ok env reqID r po imageURL _ jar req res hj hb hs,
    relayResponse_invalid env reqID po imageURL res _ hbad]
  rfl

/-! ## What the relay does to the header map -/

theorem canon_relay_names :
    relayRespNames.map canonicalMIMEHeaderKey =
      ["Cache-Control", "Expires", "Etag", "Content-Type", "Content-Encoding",
        "Content-Range", "Accept-Ranges", "Content-Length", "Content-Disposition"] := by
  decide

theorem set_apply_ne (h : Header) (k v x : String) (hx : x ≠ canonicalMIMEHeaderKey k) :
    (h.Set k v) x = h x := by
  simp [Header.Set, hx]

theorem set_apply_self (h : Header) (k v : String) :
    (h.Set k v) (canonicalMIMEHeaderKey k) = some [v] := by
  simp [Header.Set]

theorem setContentLength_apply_ne (res : Response) (h : Header) (x : String)
    (hx : x ≠ "Content-Length") : (setContentLength res h) x = h x := by
  unfold setContentLength
  split
  · exact set_apply_ne h _ _ x (by rw [canon_content_length]; exact hx)
  · rfl

theorem resolveImageType_apply_ne (env : Env) (imageURL : String) (h : Header) (x : String)
    (hx : x ≠ "Content-Type") : (resolveImageType env imageURL h).2 x = h x := by
  have hset : ∀ v, (h.Set "Content-Type" v) x = h x := fun v =>
    set_apply_ne h _ v x (by rw [canon_content_type]; exact hx)
  unfold resolveImageType
  simp only []
  split
  · rfl
  · split
    · rfl
    · split
      · split
        · exact hset _
        · rfl
      · rfl

/-- The relay leaves every key outside its nine names as it found it. -/
theorem relayHeaders_frame (env : Env) (res : Response) (po : ProcessingOptions)
    (imageURL : String) (h : Header) (x : String)
    (hx : x ∉ relayRespNames.map canonicalMIMEHeaderKey) :
    (relayHeaders env res po imageURL h) x = h x := by
  rw [canon_relay_names] at hx
  simp only [List.mem_cons, List.mem_singleton, List.not_mem_nil, or_false, not_or] at hx
  obtain ⟨h1, h2, h3, h4, h5, h6, h7, h8, h9⟩ := hx
  have hpass : (passthrough res h) x = h x := by
    rw [passthrough_apply, canon_response_names]
    simp [h1, h2, h3, h4, h5, h6, h7]
  have hcl : (setContentLength res (passthrough res h)) x = h x := by
    rw [setContentLength_apply_ne res _ x h8, hpass]
  unfold relayHeaders
  simp only []
  split
  · rw [set_apply_ne _ _ _ x (by rw [canon_content_disposition]; exact h9),
      resolveImageType_apply_ne env imageURL _ x h4, hcl]
  · exact hcl

theorem goInt_of_int64 (n : Int) (hlo : -2 ^ 63 ≤ n) (hhi : n < 2 ^ 63) : goInt n = n := by
  unfold goInt
  omega

/-- The relay's map under `Content-Length`: set by line 91 when the origin
length is known, otherwise whatever the map held before. -/
theorem relayHeaders_content_length (env : Env) (res : Response) (po : ProcessingOptions)
    (imageURL : String) (h : Header) :
    (relayHeaders env res po imageURL h) "Content-Length" =
      if res.ContentLength ≥ 0 then some [Itoa (goInt res.ContentLength)]
      else h "Content-Length" := by
  have hpass : (passthrough res h) "Content-Length" = h "Content-Length" := by
    rw [passthrough_apply, canon_response_names]
    simp
  have hcl : (setContentLength res (passthrough res h)) "Content-Length" =
      if res.ContentLength ≥ 0 then some [Itoa (goInt res.ContentLength)]
      else h "Content-Length" := by
    unfold setContentLength
    split
    · have := set_apply_self (passthrough res h) "Content-Length" (Itoa (goInt res.ContentLength))
      rw [canon_content_length] at this
      exact this
    · exact hpass
  unfold relayHeaders
  simp only []
  split
  · rw [set_apply_ne _ _ _ _ (by rw [canon_content_disposition]; decide),
      resolveImageType_apply_ne env imageURL _ _ (by decide), hcl]
  · exact hcl

/-- The map under `Content-Type` when the metadata resolution starts: the last
origin value if the origin sent one, otherwise what the map held before. -/
theorem content_type_before_resolution (res : Response) (h : Header) :
    (setContentLength res (passthrough res h)) "Content-Type" =
      match (res.Header.Values "Content-Type").getLast? with
      | none => h "Content-Type"
      | some v => some [v] := by
  rw [setContentLength_apply_ne res _ _ (by decide), passthrough_apply, canon_response_names]
  simp [Header.Values, canon_content_type]

/-- The relay's map under `Content-Type` is the one the resolution leaves. -/
theorem relayHeaders_content_type (env : Env) (res : Response) (po : ProcessingOptions)
    (imageURL : String) (h : Header) :
    (relayHeaders env res po imageURL h) "Content-Type" =
      if res.StatusCode < 300 then
        (resolveImageType env imageURL (setContentLength res (passthrough res h))).2 "Content-Type"
      else (setContentLength res (passthrough res h)) "Content-Type" := by
  unfold relayHeaders
  simp only []
  split
  · rw [set_apply_ne _ _ _ _ (by rw [canon_content_disposition]; decide)]
  · rfl

/-- The relay's map under `Content-Disposition`. -/
theorem relayHeaders_content_disposition (env : Env) (res : Response) (po : ProcessingOptions)
    (imageURL : String) (h : Header) :
    (relayHeaders env res po imageURL h) "Content-Disposition" =
      if res.StatusCode < 300 then
        some [contentDisposition env po imageURL
          (resolveImageType env imageURL (setContentLength res (passthrough res h))).1]
      else h "Content-Disposition" := by
  unfold relayHeaders
  simp only []
  split
  · have := set_apply_self (resolveImageType env imageURL
      (setContentLength res (passthrough res h))).2 "Content-Disposition"
      (contentDisposition env po imageURL
        (resolveImageType env imageURL (setContentLength res (passthrough res h))).1)
    rw [canon_content_disposition] at this
    exact this
  · rw [setContentLength_apply_ne res _ _ (by decide), passthrough_apply, canon_response_names]
    simp

/-- Resolution with a non-empty `Content-Type` on the map: by MIME, map untouched. -/
theorem resolve_by_mime (env : Env) (imageURL : String) (h : Header) (v : String)
    (hv : v ≠ "") (hct : h "Content-Type" = some [v]) :
    resolveImageType env imageURL h = (env.ByMime v, h) := by
  have hget : h.Get "Content-Type" = v := by
    simp [Header.Get, Header.Values, canon_content_type, hct, firstValue]
  have hlen : v.length > 0 := by
    have := (string_length_eq_zero v).not.mpr hv
    omega
  unfold resolveImageType
  simp only [hget, hlen, if_true]

/-- Resolution with no usable `Content-Type` on the map: by the URL extension. -/
theorem resolve_by_extension (env : Env) (imageURL : String) (h : Header)
    (hct : h.Get "Content-Type" = "") :
    resolveImageType env imageURL h =
      match env.urlParse imageURL with
      | none => (ImageType.Unknown, h)
      | some path =>
        if (filepathExt path).length > 1 then
          ((env.Types ((filepathExt path).drop 1)).getD ImageType.Unknown,
            if (env.TypeByExtension (filepathExt path)).length > 0 then
              h.Set "Content-Type" (env.TypeByExtension (filepathExt path))
            else h)
        else (ImageType.Unknown, h) := by
  have hlen : ¬ ("".length > 0) := by decide
  unfold resolveImageType
  simp only [hct, hlen, if_false]
  cases env.urlParse imageURL with
  | none => rfl
  | some path =>
    simp only []
    split
    · split <;> rfl
    · rfl

/-! ## The body copy -/

theorem writeChunk_meta (cw : Nat → List Byte → Int × Option Err) (rw : ResponseWriter)
    (p : List Byte) :
    (writeChunk cw rw p).1.header = rw.header ∧
      (writeChunk cw rw p).1.statusLines = rw.statusLines := by
  unfold writeChunk
  simp only []
  split
  · exact ⟨rfl, rfl⟩
  · split
    · split <;> exact ⟨rfl, rfl⟩
    · split <;> exact ⟨rfl, rfl⟩

/-- The body copy touches neither the header map nor the recorded status lines. -/
theorem copyLoop_meta (cw : Nat → List Byte → Int × Option Err) (last : List Byte)
    (err : Option Err) (chunks : List (List Byte)) (rw : ResponseWriter) :
    (copyLoop cw last err chunks rw).1.header = rw.header ∧
      (copyLoop cw last err chunks rw).1.statusLines = rw.statusLines := by
  induction chunks generalizing rw with
  | nil =>
    unfold copyLoop
    simp only []
    have hw : (if last.length > 0 then writeChunk cw rw last else (rw, none)).1.header = rw.header ∧
        (if last.length > 0 then writeChunk cw rw last else (rw, none)).1.statusLines =
          rw.statusLines := by
      split
      · exact writeChunk_meta cw rw last
      · exact ⟨rfl, rfl⟩
    split <;> exact hw
  | cons p ps ih =>
    unfold copyLoop
    simp only []
    have hw : (if p.length > 0 then writeChunk cw rw p else (rw, none)).1.header = rw.header ∧
        (if p.length > 0 then writeChunk cw rw p else (rw, none)).1.statusLines =
          rw.statusLines := by
      split
      · exact writeChunk_meta cw rw p
      · exact ⟨rfl, rfl⟩
    split
    · exact hw
    · have := ih (if p.length > 0 then writeChunk cw rw p else (rw, none)).1
      exact ⟨this.1.trans hw.1, this.2.trans hw.2⟩

theorem writeChunk_accept (cw : Nat → List Byte → Int × Option Err)
    (hcw : ∀ i p, cw i p = ((p.length : Int), none)) (rw : ResponseWriter) (p : List Byte) :
    (writeChunk cw rw p).2 = none ∧ (writeChunk cw rw p).1.written = rw.written ++ p := by
  have hnn : ¬ ((p.length : Int) < 0) := by omega
  unfold writeChunk
  simp [hcw, hnn]

/-- With a client that accepts every write, the copy delivers every chunk in
order and ends with the error of the final read. -/
theorem copyLoop_accept (cw : Nat → List Byte → Int × Option Err)
    (hcw : ∀ i p, cw i p = ((p.length : Int), none)) (last : List Byte) (err : Option Err)
    (chunks : List (List Byte)) (rw : ResponseWriter) :
    (copyLoop cw last err chunks rw).2 = err ∧
      (copyLoop cw last err chunks rw).1.written = rw.written ++ (chunks.flatten ++ last) := by
  induction chunks generalizing rw with
  | nil =>
    unfold copyLoop
    simp only []
    by_cases hl : last.length > 0
    · have hw := writeChunk_accept cw hcw rw last
      simp [hl, hw.1, hw.2]
    · have : last = [] := by
        cases last with
        | nil => rfl
        | cons a t => simp at hl
      simp [this]
  | cons p ps ih =>
    unfold copyLoop
    simp only []
    by_cases hl : p.length > 0
    · have hw := writeChunk_accept cw hcw rw p
      have := ih (writeChunk cw rw p).1
      simp [hl, hw.1, this.1, this.2, hw.2, List.append_assoc]
    · have hp : p = [] := by
        cases p with
        | nil => rfl
        | cons a t => simp at hl
      have := ih rw
      simp [hp, this.1, this.2]

/-! ## Claims -/

/-- C1: the header map handed to `imagedata.BuildImageRequest` is the one built
from the inbound request; its keys lie in the inbound-forward allow-list, and
an allow-listed key is present exactly when the first inbound value for it is
non-empty, in which case it carries exactly that value. -/
theorem request_headers_allowlisted (env : Env) (reqID : String) (r : Request)
    (po : ProcessingOptions) (imageURL : String) (s : Sys) :
    ((streamOriginImage env reqID r po imageURL s).1.built = s.built ∨
      ∃ jar, (streamOriginImage env reqID r po imageURL s).1.built =
        s.built ++ [(imageURL, imgRequestHeader r, jar)]) ∧
    (∀ k, (imgRequestHeader r) k ≠ none → k ∈ ["If-None-Match", "Accept-Encoding", "Range"]) ∧
    (∀ k ∈ ["If-None-Match", "Accept-Encoding", "Range"],
      ((imgRequestHeader r) k ≠ none ↔ r.Header.Get k ≠ "") ∧
      (r.Header.Get k ≠ "" → (imgRequestHeader r) k = some [r.Header.Get k])) := by
  refine ⟨?_, ?_, ?_⟩
  · simp only [streamOriginImage]
    cases hj : cookieJarResult env r with
    | error e => left; rw [fetch_jar_error env reqID r po imageURL _ e hj]
    | ok jar =>
      right
      refine ⟨jar, ?_⟩
      cases hb : env.BuildImageRequest imageURL (imgRequestHeader r) jar with
      | error e => rw [fetch_build_error env reqID r po imageURL _ e jar hj hb]
      | ok req =>
        cases hs : env.SendRequest req with
        | error e => rw [fetch_send_error env reqID r po imageURL _ e jar req hj hb hs]; rfl
        | ok res =>
          by_cases hbad : res.StatusCode < 100 ∨ res.StatusCode > 999
          · rw [fetch_ok env reqID r po imageURL _ jar req res hj hb hs,
              relayResponse_invalid env reqID po imageURL res _ hbad]
            rfl
          · rw [fetch_ok env reqID r po imageURL _ jar req res hj hb hs,
              relayResponse_valid env reqID po imageURL res _ (by omega) (by omega)]
            rfl
  · intro k hk
    rw [imgRequestHeader_apply] at hk
    by_contra hmem
    have : ¬ (k ∈ streamReqHeaders ∧ (firstValue ((r.Header k).getD [])).length ≠ 0) :=
      fun h => hmem h.1
    simp [this] at hk
  · intro k hk
    have hfix : canonicalMIMEHeaderKey k = k := canon_request_fixed k hk
    have hget : r.Header.Get k = firstValue ((r.Header k).getD []) := by
      simp [Header.Get, Header.Values, hfix]
    have hmem : k ∈ streamReqHeaders := hk
    rw [imgRequestHeader_apply, hget]
    have hlen := string_length_eq_zero (firstValue ((r.Header k).getD []))
    by_cases hv : firstValue ((r.Header k).getD []) = ""
    · have h0 : (firstValue ((r.Header k).getD [])).length = 0 := hlen.mpr hv
      simp [hv, h0]
    · have h0 : (firstValue ((r.Header k).getD [])).length ≠ 0 := fun h => hv (hlen.mp h)
      simp [hv, h0, hmem]

/-- C2: from an empty client header map, for any origin status, the map on the
client response is the relay's own map handed through `setCacheControl` and
`setCanonical`, and it is the map written with the status line whenever
`WriteHeader` accepts the status. Every key of the relay's own map is the
canonical key of an outbound allow-list name or of `Content-Length` /
`Content-Disposition`; every key of the final map is one of those or a key at
which one of the two collaborators changed the map it was given; and origin
headers outside the allow-list have no influence on the final map. -/
theorem response_headers_allowlisted (env : Env) (reqID : String) (r : Request)
    (po : ProcessingOptions) (imageURL : String) (s : Sys) (res : Response)
    (hempty : s.rw.header = Header.empty) (hres : Obtains env r imageURL res) :
    (streamOriginImage env reqID r po imageURL s).1.rw.header =
        committedHeader env res po imageURL Header.empty ∧
      (streamOriginImage env reqID r po imageURL s).1.rw.statusLines =
        s.rw.statusLines ++
          (if 100 ≤ res.StatusCode ∧ res.StatusCode ≤ 999 then
            [(res.StatusCode, committedHeader env res po imageURL Header.empty)]
          else []) ∧
      committedHeader env res po imageURL Header.empty =
        env.setCanonical
          (env.setCacheControl (relayHeaders env res po imageURL Header.empty)
            ((relayHeaders env res po imageURL Header.empty).Get "Cache-Control")
            ((relayHeaders env res po imageURL Header.empty).Get "Expires"))
          imageURL ∧
      (∀ k, relayHeaders env res po imageURL Header.empty k ≠ none →
        k ∈ relayRespNames.map canonicalMIMEHeaderKey) ∧
      (∀ k, committedHeader env res po imageURL Header.empty k ≠ none →
        k ∈ relayRespNames.map canonicalMIMEHeaderKey ∨
          cacheControlled env res po imageURL Header.empty k ≠
            relayHeaders env res po imageURL Header.empty k ∨
          committedHeader env res po imageURL Header.empty k ≠
            cacheControlled env res po imageURL Header.empty k) ∧
      (∀ other : Response,
        (∀ k ∈ streamRespHeaders, other.Header.Values k = res.Header.Values k) →
        other.ContentLength = res.ContentLength → other.StatusCode = res.StatusCode →
        committedHeader env other po imageURL Header.empty =
          committedHeader env res po imageURL Header.empty) := by
  have hkeys : ∀ k, relayHeaders env res po imageURL Header.empty k ≠ none →
      k ∈ relayRespNames.map canonicalMIMEHeaderKey := by
    intro k hk
    by_contra hout
    exact hk (relayHeaders_frame env res po imageURL Header.empty k hout)
  obtain ⟨jar, req, hj, hb, hs⟩ := hres
  refine ⟨?_, ?_, rfl, hkeys, ?_, ?_⟩
  · by_cases hbad : res.StatusCode < 100 ∨ res.StatusCode > 999
    · rw [stream_obtained_invalid env reqID r po imageURL s jar req res hj hb hs hbad]
      simp [hempty]
    · rw [stream_obtained env reqID r po imageURL s jar req res hj hb hs (by omega) (by omega)]
      show (copyBuffer env.clientWrite (afterWriteHeader env res po imageURL s.rw)
        res.Body).1.header = _
      simp only [copyBuffer]
      rw [(copyLoop_meta _ _ _ _ _).1]
      simp [afterWriteHeader, hempty]
  · by_cases hbad : res.StatusCode < 100 ∨ res.StatusCode > 999
    · rw [stream_obtained_invalid env reqID r po imageURL s jar req res hj hb hs hbad]
      have hno : ¬ (100 ≤ res.StatusCode ∧ res.StatusCode ≤ 999) := by omega
      simp [hno]
    · rw [stream_obtained env reqID r po imageURL s jar req res hj hb hs (by omega) (by omega)]
      have hyes : 100 ≤ res.StatusCode ∧ res.StatusCode ≤ 999 := by omega
      show (copyBuffer env.clientWrite (afterWriteHeader env res po imageURL s.rw)
        res.Body).1.statusLines = _
      simp only [copyBuffer]
      rw [(copyLoop_meta _ _ _ _ _).2]
      simp [afterWriteHeader, hempty, hyes]
  · intro k hk
    by_contra hcon
    simp only [not_or, not_not] at hcon
    obtain ⟨hout, h1, h2⟩ := hcon
    have hnone : relayHeaders env res po imageURL Header.empty k = none :=
      relayHeaders_frame env res po imageURL Header.empty k hout
    exact hk (h2.trans (h1.trans hnone))
  · intro other hvals hlen hcode
    have hpass : passthrough other Header.empty = passthrough res Header.empty := by
      unfold passthrough
      apply List.foldl_ext
      intro h k hk
      rw [hvals k hk]
    have hrel : relayHeaders env other po imageURL Header.empty =
        relayHeaders env res po imageURL Header.empty := by
      unfold relayHeaders setContentLength
      rw [hpass, hlen, hcode]
    unfold committedHeader cacheControlled
    rw [hrel]

/-- Witness for C2: the sample origin sends a cookie next to its content type;
the final map has no `Set-Cookie` key, and it is the map of an origin that
sends no cookie at all. -/
theorem response_headers_allowlisted_witness :
    sampleResponse.Header "Set-Cookie" = some ["id=1"] ∧
      (streamOriginImage (sampleEnv sampleResponse acceptAll) "req-1" sampleRequest samplePO
        "http://origin.test/pic.jpg" freshSys).1.rw.header "Set-Cookie" = none ∧
      (streamOriginImage (sampleEnv sampleResponse acceptAll) "req-1" sampleRequest samplePO
        "http://origin.test/pic.jpg" freshSys).1.rw.header =
        committedHeader (sampleEnv sampleResponse acceptAll) sampleResponse samplePO
          "http://origin.test/pic.jpg" Header.empty ∧
      (∀ k, relayHeaders (sampleEnv sampleResponse acceptAll) sampleResponse samplePO
          "http://origin.test/pic.jpg" Header.empty k ≠ none →
        k ∈ relayRespNames.map canonicalMIMEHeaderKey) :=
  have h := response_headers_allowlisted (sampleEnv sampleResponse acceptAll) "req-1"
    sampleRequest samplePO "http://origin.test/pic.jpg" freshSys sampleResponse rfl
    ⟨none, ⟨"http://origin.test/pic.jpg", imgRequestHeader sampleRequest, none⟩, rfl, rfl, rfl⟩
  ⟨by decide, by decide, h.1, h.2.2.2.1⟩

/-- C3: on every exit path the in-flight counter is incremented once and
decremented once and ends at its pre-call value. A call that obtained an origin
response closes the body exactly once; when `WriteHeader` accepts the status the
call ends in completion or abort and has taken one pool buffer and returned it
once, and when `WriteHeader` panics no buffer was taken or returned. A call that
obtained no response closes no body and touches no buffer. -/
theorem inflight_and_resources_balanced (env : Env) (reqID : String) (r : Request)
    (po : ProcessingOptions) (imageURL : String) (s : Sys) :
    (streamOriginImage env reqID r po imageURL s).1.imagesInProgress = s.imagesInProgress ∧
      (streamOriginImage env reqID r po imageURL s).1.incCalls = s.incCalls + 1 ∧
      (streamOriginImage env reqID r po imageURL s).1.decCalls = s.decCalls + 1 ∧
      (∀ res, Obtains env r imageURL res →
        (streamOriginImage env reqID r po imageURL s).1.bodyCloses = s.bodyCloses + 1 ∧
        (100 ≤ res.StatusCode ∧ res.StatusCode ≤ 999 →
          ((streamOriginImage env reqID r po imageURL s).2 = Exit.returned ∨
            (streamOriginImage env reqID r po imageURL s).2 =
              Exit.panicked PanicValue.ErrAbortHandler) ∧
          (streamOriginImage env reqID r po imageURL s).1.bufGets = s.bufGets + 1 ∧
          (streamOriginImage env reqID r po imageURL s).1.bufPuts = s.bufPuts + 1) ∧
        (res.StatusCode < 100 ∨ res.StatusCode > 999 →
          (streamOriginImage env reqID r po imageURL s).2 =
            Exit.panicked (PanicValue.invalidWriteHeaderCode res.StatusCode) ∧
          (streamOriginImage env reqID r po imageURL s).1.bufGets = s.bufGets ∧
          (streamOriginImage env reqID r po imageURL s).1.bufPuts = s.bufPuts)) ∧
      ((¬ ∃ res, Obtains env r imageURL res) →
        (streamOriginImage env reqID r po imageURL s).1.bodyCloses = s.bodyCloses ∧
        (streamOriginImage env reqID r po imageURL s).1.bufGets = s.bufGets ∧
        (streamOriginImage env reqID r po imageURL s).1.bufPuts = s.bufPuts) := by
  cases hj : cookieJarResult env r with
  | error e =>
    simp only [streamOriginImage]
    rw [fetch_jar_error env reqID r po imageURL _ e hj]
    refine ⟨by simp, rfl, rfl, ?_, fun _ => ⟨rfl, rfl, rfl⟩⟩
    rintro res ⟨jar, req, hj2, _, _⟩
    rw [hj] at hj2
    cases hj2
  | ok jar =>
    cases hb : env.BuildImageRequest imageURL (imgRequestHeader r) jar with
    | error e =>
      simp only [streamOriginImage]
      rw [fetch_build_error env reqID r po imageURL _ e jar hj hb]
      refine ⟨by simp, rfl, rfl, ?_, fun _ => ⟨rfl, rfl, rfl⟩⟩
      rintro res ⟨jar2, req, hj2, hb2, _⟩
      rw [hj] at hj2
      cases hj2
      rw [hb] at hb2
      cases hb2
    | ok req =>
      cases hs : env.SendRequest req with
      | error e =>
        simp only [streamOriginImage]
        rw [fetch_send_error env reqID r po imageURL _ e jar req hj hb hs]
        refine ⟨by simp [withCalls], rfl, rfl, ?_, fun _ => ⟨rfl, rfl, rfl⟩⟩
        rintro res ⟨jar2, req2, hj2, hb2, hs2⟩
        rw [hj] at hj2
        cases hj2
        rw [hb] at hb2
        cases hb2
        rw [hs] at hs2
        cases hs2
      | ok res =>
        have hsame : ∀ other, Obtains env r imageURL other → other = res := by
          rintro other ⟨jar2, req2, hj2, hb2, hs2⟩
          rw [hj] at hj2
          cases hj2
          rw [hb] at hb2
          cases hb2
          rw [hs] at hs2
          cases hs2
          rfl
        by_cases hbad : res.StatusCode < 100 ∨ res.StatusCode > 999
        · rw [stream_obtained_invalid env reqID r po imageURL s jar req res hj hb hs hbad]
          refine ⟨by simp, rfl, rfl, ?_, ?_⟩
          · intro other hob
            rw [hsame other hob]
            refine ⟨rfl, ?_, fun _ => ⟨rfl, rfl, rfl⟩⟩
            intro hok
            omega
          · intro hno
            exact absurd ⟨res, jar, req, hj, hb, hs⟩ hno
        · rw [stream_obtained env reqID r po imageURL s jar req res hj hb hs
            (by omega) (by omega)]
          refine ⟨by simp, rfl, rfl, ?_, ?_⟩
          · intro other hob
            rw [hsame other hob]
            refine ⟨rfl, fun _ => ⟨?_, rfl, rfl⟩, fun h => absurd h hbad⟩
            by_cases hc : (copyBuffer env.clientWrite
                (afterWriteHeader env res po imageURL s.rw) res.Body).2 = none
            · left
              simp [hc]
            · right
              simp [hc]
          · intro hno
            exact absurd ⟨res, jar, req, hj, hb, hs⟩ hno

/-- C4: when the cookie jar (with `config.CookiePassthrough` on), the request
construction or the send yields an error, the call ends with that error
surfaced through `checkErr`; no later step has run (no request is built or sent
after a jar failure, none is sent after a construction failure, at most one is
sent in all), and the client response is untouched: no header, no status line,
no body byte. -/
theorem setup_failure_fails_fast (env : Env) (reqID : String) (r : Request)
    (po : ProcessingOptions) (imageURL : String) (s : Sys) (e : Err)
    (hfail : (env.CookiePassthrough = true ∧ env.JarFromRequest r = Except.error e) ∨
      (∃ jar, cookieJarResult env r = Except.ok jar ∧
        env.BuildImageRequest imageURL (imgRequestHeader r) jar = Except.error e) ∨
      (∃ jar req, cookieJarResult env r = Except.ok jar ∧
        env.BuildImageRequest imageURL (imgRequestHeader r) jar = Except.ok req ∧
        env.SendRequest req = Except.error e)) :
    (streamOriginImage env reqID r po imageURL s).2 = Exit.panicked (PanicValue.error e) ∧
      (streamOriginImage env reqID r po imageURL s).1.rw = s.rw ∧
      (streamOriginImage env reqID r po imageURL s).1.logs = s.logs ∧
      (streamOriginImage env reqID r po imageURL s).1.bodyCloses = s.bodyCloses ∧
      (streamOriginImage env reqID r po imageURL s).1.bufGets = s.bufGets ∧
      (streamOriginImage env reqID r po imageURL s).1.sent.length ≤ s.sent.length + 1 ∧
      (env.JarFromRequest r = Except.error e → env.CookiePassthrough = true →
        (streamOriginImage env reqID r po imageURL s).1.built = s.built ∧
        (streamOriginImage env reqID r po imageURL s).1.sent = s.sent) ∧
      ((∃ jar, cookieJarResult env r = Except.ok jar ∧
          env.BuildImageRequest imageURL (imgRequestHeader r) jar = Except.error e) →
        (streamOriginImage env reqID r po imageURL s).1.sent = s.sent) := by
  simp only [streamOriginImage]
  rcases hfail with ⟨hc, hjr⟩ | ⟨jar, hj, hb⟩ | ⟨jar, req, hj, hb, hs⟩
  · have hj : cookieJarResult env r = Except.error e := by
      simp [cookieJarResult, hc, hjr, Except.map]
    rw [fetch_jar_error env reqID r po imageURL _ e hj]
    refine ⟨rfl, rfl, rfl, rfl, rfl, by simp, fun _ _ => ⟨rfl, rfl⟩, fun _ => rfl⟩
  · rw [fetch_build_error env reqID r po imageURL _ e jar hj hb]
    refine ⟨rfl, rfl, rfl, rfl, rfl, by simp, ?_, fun _ => rfl⟩
    intro hjr hc
    have : cookieJarResult env r = Except.error e := by
      simp [cookieJarResult, hc, hjr, Except.map]
    rw [hj] at this
    cases this
  · rw [fetch_send_error env reqID r po imageURL _ e jar req hj hb hs]
    refine ⟨rfl, rfl, rfl, rfl, rfl, by simp [withCalls], ?_, ?_⟩
    · intro hjr hc
      have : cookieJarResult env r = Except.error e := by
        simp [cookieJarResult, hc, hjr, Except.map]
      rw [hj] at this
      cases this
    · rintro ⟨jar2, hj2, hb2⟩
      rw [hj] at hj2
      cases hj2
      rw [hb] at hb2
      cases hb2

/-- Witness for C4: cookie passthrough is on and the jar builder fails. -/
theorem setup_failure_fails_fast_witness :
    (streamOriginImage jarFailEnv "req-1" sampleRequest samplePO
        "http://origin.test/pic.jpg" freshSys).2 =
        Exit.panicked (PanicValue.error "bad cookie") ∧
      (streamOriginImage jarFailEnv "req-1" sampleRequest samplePO
        "http://origin.test/pic.jpg" freshSys).1.rw = freshSys.rw ∧
      (streamOriginImage jarFailEnv "req-1" sampleRequest samplePO
        "http://origin.test/pic.jpg" freshSys).1.sent.length = 0 :=
  have h := setup_failure_fails_fast jarFailEnv "req-1" sampleRequest samplePO
    "http://origin.test/pic.jpg" freshSys "bad cookie" (Or.inl ⟨rfl, rfl⟩)
  ⟨h.1, h.2.1, by decide⟩

/-- C5, as the code has it: for a call whose status line was written (the
origin status is one `WriteHeader` accepts, 100 to 999), a body copy that ends
without an error makes the call return and emit exactly one completion log
record, carrying the origin status code, the image URL and the processing
options; a body copy that ends with an error makes the call panic with
`http.ErrAbortHandler` and emit no record. -/
theorem completion_log_on_done_only (env : Env) (reqID : String) (r : Request)
    (po : ProcessingOptions) (imageURL : String) (s : Sys) (res : Response)
    (hres : Obtains env r imageURL res)
    (hlo : 100 ≤ res.StatusCode) (hhi : res.StatusCode ≤ 999) :
    (streamOriginImage env reqID r po imageURL s).1.rw.statusLines =
        s.rw.statusLines ++ [(res.StatusCode, committedHeader env res po imageURL s.rw.header)] ∧
      ((copyBuffer env.clientWrite (afterWriteHeader env res po imageURL s.rw) res.Body).2 = none →
        (streamOriginImage env reqID r po imageURL s).2 = Exit.returned ∧
        (streamOriginImage env reqID r po imageURL s).1.logs =
          s.logs ++ [⟨reqID, res.StatusCode, none, imageURL, po⟩]) ∧
      ((copyBuffer env.clientWrite (afterWriteHeader env res po imageURL s.rw) res.Body).2 ≠ none →
        (streamOriginImage env reqID r po imageURL s).2 =
          Exit.panicked PanicValue.ErrAbortHandler ∧
        (streamOriginImage env reqID r po imageURL s).1.logs = s.logs) := by
  obtain ⟨jar, req, hj, hb, hs⟩ := hres
  rw [stream_obtained env reqID r po imageURL s jar req res hj hb hs hlo hhi]
  refine ⟨?_, ?_, ?_⟩
  · show (copyBuffer env.clientWrite (afterWriteHeader env res po imageURL s.rw)
      res.Body).1.statusLines = _
    simp only [copyBuffer]
    rw [(copyLoop_meta _ _ _ _ _).2]
    rfl
  · intro hc
    simp [hc]
  · intro hc
    simp [hc]

/-- Witness for C5 as amended: the sample call with a client that accepts
every write logs one record with status 200. -/
theorem completion_log_on_done_only_witness :
    (streamOriginImage (sampleEnv sampleResponse acceptAll) "req-1" sampleRequest samplePO
        "http://origin.test/pic.jpg" freshSys).2 = Exit.returned ∧
      (streamOriginImage (sampleEnv sampleResponse acceptAll) "req-1" sampleRequest samplePO
        "http://origin.test/pic.jpg" freshSys).1.logs =
        [⟨"req-1", 200, none, "http://origin.test/pic.jpg", samplePO⟩] :=
  (completion_log_on_done_only (sampleEnv sampleResponse acceptAll) "req-1" sampleRequest
    samplePO "http://origin.test/pic.jpg" freshSys sampleResponse
    ⟨none, ⟨"http://origin.test/pic.jpg", imgRequestHeader sampleRequest, none⟩,
      rfl, rfl, rfl⟩ (by decide) (by decide)).2.1 (by decide)

/-- Counterexample to C5 as stated: the client goes away after the status line
200 was written; the call is aborted and not one log record is emitted. -/
theorem completion_log_missing_on_abort :
    ((streamOriginImage (sampleEnv sampleResponse disconnected) "req-1" sampleRequest samplePO
        "http://origin.test/pic.jpg" freshSys).1.rw.statusLines.map Prod.fst = [200]) ∧
      (streamOriginImage (sampleEnv sampleResponse disconnected) "req-1" sampleRequest samplePO
        "http://origin.test/pic.jpg" freshSys).2 = Exit.panicked PanicValue.ErrAbortHandler ∧
      (streamOriginImage (sampleEnv sampleResponse disconnected) "req-1" sampleRequest samplePO
        "http://origin.test/pic.jpg" freshSys).1.logs = [] := by
  decide

/-- C6, as the code has it: for an origin status that `WriteHeader` accepts (100
to 999), when the body is read to `io.EOF` and the client accepts every write,
the call returns, the status line carries the origin status code unchanged, the
bytes written to the client are the body bytes in order (whatever the sizes of
the reads), and the relay sets `Content-Length` to the decimal string of the
origin length when that is known (`>= 0`) and leaves the key alone otherwise. -/
theorem relay_passes_status_length_body (env : Env) (reqID : String) (r : Request)
    (po : ProcessingOptions) (imageURL : String) (s : Sys) (res : Response)
    (hres : Obtains env r imageURL res) (hread : res.Body.err = none)
    (hwrite : ∀ i p, env.clientWrite i p = ((p.length : Int), none))
    (hlo : -2 ^ 63 ≤ res.ContentLength) (hhi : res.ContentLength < 2 ^ 63)
    (hcodelo : 100 ≤ res.StatusCode) (hcodehi : res.StatusCode ≤ 999) :
    (streamOriginImage env reqID r po imageURL s).2 = Exit.returned ∧
      (streamOriginImage env reqID r po imageURL s).1.rw.statusLines.map Prod.fst =
        s.rw.statusLines.map Prod.fst ++ [res.StatusCode] ∧
      (streamOriginImage env reqID r po imageURL s).1.rw.written =
        s.rw.written ++ res.Body.bytes ∧
      (0 ≤ res.ContentLength →
        (relayHeaders env res po imageURL s.rw.header).Values "Content-Length" =
          [Itoa res.ContentLength]) ∧
      (res.ContentLength < 0 →
        (relayHeaders env res po imageURL s.rw.header) "Content-Length" =
          s.rw.header "Content-Length") := by
  obtain ⟨jar, req, hj, hb, hs⟩ := hres
  rw [stream_obtained env reqID r po imageURL s jar req res hj hb hs hcodelo hcodehi]
  have hcopy := copyLoop_accept env.clientWrite hwrite res.Body.last res.Body.err
    res.Body.chunks (afterWriteHeader env res po imageURL s.rw)
  have hmeta := copyLoop_meta env.clientWrite res.Body.last res.Body.err
    res.Body.chunks (afterWriteHeader env res po imageURL s.rw)
  have herr : (copyBuffer env.clientWrite (afterWriteHeader env res po imageURL s.rw)
      res.Body).2 = none := by
    rw [← hread]
    exact hcopy.1
  refine ⟨by simp [herr], ?_, ?_, ?_, ?_⟩
  · show (copyBuffer env.clientWrite (afterWriteHeader env res po imageURL s.rw)
      res.Body).1.statusLines.map Prod.fst = _
    simp only [copyBuffer]
    rw [hmeta.2]
    simp [afterWriteHeader]
  · show (copyBuffer env.clientWrite (afterWriteHeader env res po imageURL s.rw)
      res.Body).1.written = _
    simp only [copyBuffer]
    rw [hcopy.2]
    rfl
  · intro hn
    have hge : res.ContentLength ≥ 0 := hn
    simp only [Header.Values, canon_content_length, relayHeaders_content_length, hge, if_true,
      goInt_of_int64 res.ContentLength hlo hhi, Option.getD_some]
  · intro hn
    have hlt : ¬ res.ContentLength ≥ 0 := by omega
    simp only [relayHeaders_content_length, hlt, if_false]

/-- Witness for C6 as amended: status 200, length 3 and the body `ABC` read in
two pieces give status 200, `Content-Length: 3` and the body `ABC`. -/
theorem relay_passes_status_length_body_witness :
    ((streamOriginImage (sampleEnv sampleResponse acceptAll) "req-1" sampleRequest samplePO
        "http://origin.test/pic.jpg" freshSys).2 = Exit.returned ∧
      (streamOriginImage (sampleEnv sampleResponse acceptAll) "req-1" sampleRequest samplePO
        "http://origin.test/pic.jpg" freshSys).1.rw.statusLines.map Prod.fst = [] ++ [200] ∧
      (streamOriginImage (sampleEnv sampleResponse acceptAll) "req-1" sampleRequest samplePO
        "http://origin.test/pic.jpg" freshSys).1.rw.written = [] ++ [65, 66, 67]) ∧
    (streamOriginImage (sampleEnv sampleResponse acceptAll) "req-1" sampleRequest samplePO
      "http://origin.test/pic.jpg" freshSys).1.rw.header.Values "Content-Length" = ["3"] ∧
    (streamOriginImage (sampleEnv sampleResponse acceptAll) "req-1" sampleRequest samplePO
      "http://origin.test/pic.jpg" freshSys).1.rw.header.Values "Content-Type" = ["image/png"] :=
  have h := relay_passes_status_length_body (sampleEnv sampleResponse acceptAll) "req-1"
    sampleRequest samplePO "http://origin.test/pic.jpg" freshSys sampleResponse
    ⟨none, ⟨"http://origin.test/pic.jpg", imgRequestHeader sampleRequest, none⟩, rfl, rfl, rfl⟩
    rfl (fun _ _ => rfl) (by decide) (by decide) (by decide) (by decide)
  ⟨⟨h.1, h.2.1, h.2.2.1⟩, by decide, by decide⟩

/-- Counterexample to C6 as stated: the origin answers with the status code 0,
its body `ABC` reads to `io.EOF` and the client accepts every write. The call
panics in `WriteHeader`: no status line reaches the client and no body byte is
written. -/
theorem zero_status_is_not_relayed :
    zeroStatusResponse.StatusCode = 0 ∧
      zeroStatusResponse.Body.err = none ∧
      zeroStatusResponse.Body.bytes = [65, 66, 67] ∧
      (streamOriginImage (sampleEnv zeroStatusResponse acceptAll) "req-1" sampleRequest samplePO
        "http://origin.test/pic.jpg" freshSys).2 =
        Exit.panicked (PanicValue.invalidWriteHeaderCode 0) ∧
      (streamOriginImage (sampleEnv zeroStatusResponse acceptAll) "req-1" sampleRequest samplePO
        "http://origin.test/pic.jpg" freshSys).1.rw.statusLines.map Prod.fst = [] ∧
      (streamOriginImage (sampleEnv zeroStatusResponse acceptAll) "req-1" sampleRequest samplePO
        "http://origin.test/pic.jpg" freshSys).1.rw.written = [] := by
  decide

/-- C7, as the code has it: for an origin response with status below 300 whose
`Content-Type` value (the last one when the header is repeated) is non-empty,
the image type is `imagetype.ByMime` of that value, the disposition is rendered
for that type, and the client `Content-Type` is that origin value: the MIME
string of the URL extension does not replace it. -/
theorem content_type_resolves_by_mime (env : Env) (res : Response) (po : ProcessingOptions)
    (imageURL : String) (h : Header) (v : String) (hst : res.StatusCode < 300)
    (hlast : (res.Header.Values "Content-Type").getLast? = some v) (hv : v ≠ "") :
    (resolveImageType env imageURL (setContentLength res (passthrough res h))).1 = env.ByMime v ∧
      (relayHeaders env res po imageURL h).Values "Content-Type" = [v] ∧
      (relayHeaders env res po imageURL h).Values "Content-Disposition" =
        [contentDisposition env po imageURL (env.ByMime v)] := by
  have hct : (setContentLength res (passthrough res h)) "Content-Type" = some [v] := by
    rw [content_type_before_resolution, hlast]
  have hres := resolve_by_mime env imageURL _ v hv hct
  refine ⟨by rw [hres], ?_, ?_⟩
  · simp only [Header.Values, canon_content_type, relayHeaders_content_type, hst, if_true, hres,
      hct, Option.getD_some]
  · simp only [Header.Values, canon_content_disposition, relayHeaders_content_disposition, hst,
      if_true, hres, Option.getD_some]

/-- Witness for C7 as amended: the sample origin sends `image/png` and the URL
ends in `.jpg`; the type is PNG and the header stays `image/png`. -/
theorem content_type_resolves_by_mime_witness :
    (resolveImageType (sampleEnv sampleResponse acceptAll) "http://origin.test/pic.jpg"
        (setContentLength sampleResponse (passthrough sampleResponse Header.empty))).1 =
        ImageType.PNG ∧
      (relayHeaders (sampleEnv sampleResponse acceptAll) sampleResponse samplePO
        "http://origin.test/pic.jpg" Header.empty).Values "Content-Type" = ["image/png"] :=
  have h := content_type_resolves_by_mime (sampleEnv sampleResponse acceptAll) sampleResponse
    samplePO "http://origin.test/pic.jpg" Header.empty "image/png" (by decide) (by decide)
    (by decide)
  ⟨h.1, h.2.1⟩

/-- Counterexample to C7 as stated: the origin carries a `Content-Type` header
with an empty value, status 200, and the URL ends in `.jpg`. The image type is
taken from the extension table, not from `ByMime`, and the client
`Content-Type` becomes the MIME string of the extension. -/
theorem empty_content_type_is_overridden :
    emptyTypeResponse.StatusCode < 300 ∧
      emptyTypeResponse.Header.Values "Content-Type" = [""] ∧
      (sampleEnv emptyTypeResponse acceptAll).ByMime "" = ImageType.Unknown ∧
      (resolveImageType (sampleEnv emptyTypeResponse acceptAll) "http://origin.test/pic.jpg"
        (setContentLength emptyTypeResponse (passthrough emptyTypeResponse Header.empty))).1 =
        ImageType.JPEG ∧
      (streamOriginImage (sampleEnv emptyTypeResponse acceptAll) "req-1" sampleRequest samplePO
        "http://origin.test/pic.jpg" freshSys).1.rw.header.Values "Content-Type" =
        ["image/jpeg"] := by
  decide

/-- C8: with status 300 or above the relay resolves nothing: its map is the
passthrough plus `Content-Length`, so `Content-Disposition` is not set and
`Content-Type` is as copied from the origin. With status below 300 it sets
`Content-Disposition` to `imgtype.ContentDisposition(po.Filename, po.ReturnAttachment)`
when `po.Filename` is non-empty and to
`imgtype.ContentDispositionFromURL(imageURL, po.ReturnAttachment)` otherwise,
`imgtype` being the resolved image type. -/
theorem disposition_only_below_300 (env : Env) (res : Response) (po : ProcessingOptions)
    (imageURL : String) (h : Header) :
    (300 ≤ res.StatusCode →
        relayHeaders env res po imageURL h = setContentLength res (passthrough res h) ∧
        (relayHeaders env res po imageURL h) "Content-Disposition" = h "Content-Disposition" ∧
        (relayHeaders env res po imageURL h) "Content-Type" =
          (passthrough res h) "Content-Type") ∧
      (res.StatusCode < 300 →
        (relayHeaders env res po imageURL h).Values "Content-Disposition" =
          [if po.Filename ≠ "" then
            env.ContentDisposition
              (resolveImageType env imageURL (setContentLength res (passthrough res h))).1
              po.Filename po.ReturnAttachment
          else
            env.ContentDispositionFromURL
              (resolveImageType env imageURL (setContentLength res (passthrough res h))).1
              imageURL po.ReturnAttachment]) := by
  constructor
  · intro hst
    have hnot : ¬ res.StatusCode < 300 := by omega
    refine ⟨?_, ?_, ?_⟩
    · unfold relayHeaders
      simp only [hnot, if_false]
    · rw [relayHeaders_content_disposition]
      simp only [hnot, if_false]
    · rw [relayHeaders_content_type]
      simp only [hnot, if_false]
      exact setContentLength_apply_ne res _ _ (by decide)
  · intro hst
    simp only [Header.Values, canon_content_disposition, relayHeaders_content_disposition, hst,
      if_true, Option.getD_some, contentDisposition]
    by_cases hf : po.Filename = ""
    · simp [hf]
    · have hlen : po.Filename.length > 0 := by
        have := (string_length_eq_zero po.Filename).not.mpr hf
        omega
      simp [hf, hlen]

/-- Witness for C8: the 404 error page gets no `Content-Disposition` and keeps
its `text/plain`; the sample 200 response gets the disposition rendered from the URL. -/
theorem disposition_only_below_300_witness :
    ((relayHeaders (sampleEnv notFoundResponse acceptAll) notFoundResponse samplePO
        "http://origin.test/pic.jpg" Header.empty) "Content-Disposition" = none ∧
      (relayHeaders (sampleEnv notFoundResponse acceptAll) notFoundResponse samplePO
        "http://origin.test/pic.jpg" Header.empty) "Content-Type" = some ["text/plain"]) ∧
    (relayHeaders (sampleEnv sampleResponse acceptAll) sampleResponse samplePO
      "http://origin.test/pic.jpg" Header.empty).Values "Content-Disposition" =
      ["inline; http://origin.test/pic.jpg"] :=
  ⟨⟨((disposition_only_below_300 (sampleEnv notFoundResponse acceptAll) notFoundResponse samplePO
      "http://origin.test/pic.jpg" Header.empty).1 (by decide)).2.1,
    by decide⟩,
    (disposition_only_below_300 (sampleEnv sampleResponse acceptAll) sampleResponse samplePO
      "http://origin.test/pic.jpg" Header.empty).2 (by decide)⟩

/-- C9: for an origin response with status below 300 that has no
`Content-Type`, on a client map that has none either: when the URL parses and
the extension `ext` of its path has more than one character, the image type is
the entry of `imagetype.Types` for `ext` without its dot (`Unknown` when there
is none) and, independently, `Content-Type` is set to `mime.TypeByExtension(ext)`
when that is non-empty and stays unset otherwise; when the URL does not parse
or the extension has at most one character, the image type is `Unknown` and
`Content-Type` stays unset. -/
theorem content_type_resolves_by_extension (env : Env) (res : Response)
    (po : ProcessingOptions) (imageURL : String) (h : Header) (hst : res.StatusCode < 300)
    (homit : res.Header.Values "Content-Type" = []) (hfresh : h "Content-Type" = none) :
    (∀ path, env.urlParse imageURL = some path → 1 < (filepathExt path).length →
        (resolveImageType env imageURL (setContentLength res (passthrough res h))).1 =
          (env.Types ((filepathExt path).drop 1)).getD ImageType.Unknown ∧
        (env.TypeByExtension (filepathExt path) ≠ "" →
          (relayHeaders env res po imageURL h).Values "Content-Type" =
            [env.TypeByExtension (filepathExt path)]) ∧
        (env.TypeByExtension (filepathExt path) = "" →
          (relayHeaders env res po imageURL h) "Content-Type" = none)) ∧
      ((env.urlParse imageURL = none ∨
          ∃ path, env.urlParse imageURL = some path ∧ (filepathExt path).length ≤ 1) →
        (resolveImageType env imageURL (setContentLength res (passthrough res h))).1 =
          ImageType.Unknown ∧
        (relayHeaders env res po imageURL h) "Content-Type" = none) := by
  have hct : (setContentLength res (passthrough res h)) "Content-Type" = none := by
    rw [content_type_before_resolution, homit]
    exact hfresh
  have hget : (setContentLength res (passthrough res h)).Get "Content-Type" = "" := by
    simp [Header.Get, Header.Values, canon_content_type, hct, firstValue]
  have hres := resolve_by_extension env imageURL _ hget
  constructor
  · intro path hp hext
    have hext2 : (filepathExt path).length > 1 := hext
    rw [hp] at hres
    simp only [hext2, if_true] at hres
    refine ⟨by rw [hres], ?_, ?_⟩
    · intro hm
      have hlen : (env.TypeByExtension (filepathExt path)).length > 0 := by
        have := (string_length_eq_zero _).not.mpr hm
        omega
      have hset := set_apply_self (setContentLength res (passthrough res h)) "Content-Type"
        (env.TypeByExtension (filepathExt path))
      rw [canon_content_type] at hset
      simp only [Header.Values, canon_content_type, relayHeaders_content_type, hst, if_true, hres,
        hlen, hset, Option.getD_some]
    · intro hm
      have hlen : ¬ (env.TypeByExtension (filepathExt path)).length > 0 := by
        have := (string_length_eq_zero _).mpr hm
        omega
      simp only [relayHeaders_content_type, hst, if_true, hres, hlen, if_false, hct]
  · rintro (hp | ⟨path, hp, hext⟩)
    · rw [hp] at hres
      refine ⟨by rw [hres], ?_⟩
      simp only [relayHeaders_content_type, hst, if_true, hres, hct]
    · have hext2 : ¬ (filepathExt path).length > 1 := by omega
      rw [hp] at hres
      simp only [hext2, if_false] at hres
      refine ⟨by rw [hres], ?_⟩
      simp only [relayHeaders_content_type, hst, if_true, hres, hct]

/-- Witness for C9: no `Content-Type` from the origin and a URL ending in
`.jpg` give the JPEG image type and `Content-Type: image/jpeg`. -/
theorem content_type_resolves_by_extension_witness :
    filepathExt "/pic.jpg" = ".jpg" ∧
      (resolveImageType (sampleEnv bareResponse acceptAll) "http://origin.test/pic.jpg"
        (setContentLength bareResponse (passthrough bareResponse Header.empty))).1 =
        ImageType.JPEG ∧
      (relayHeaders (sampleEnv bareResponse acceptAll) bareResponse samplePO
        "http://origin.test/pic.jpg" Header.empty).Values "Content-Type" = ["image/jpeg"] :=
  have h := (content_type_resolves_by_extension (sampleEnv bareResponse acceptAll) bareResponse
    samplePO "http://origin.test/pic.jpg" Header.empty (by decide) (by decide) rfl).1
    "/pic.jpg" rfl (by decide)
  ⟨by decide, h.1, h.2.1 (by decide)⟩

/-- C10: for an allow-listed response header name for which the origin supplies
values `v1..vn`, the client map holds after the passthrough loop exactly the one
value `vn`; a name for which the origin supplies no value is left as it was. -/
theorem passthrough_keeps_last_value (res : Response) (h : Header) (k : String)
    (hk : k ∈ streamRespHeaders) :
    (∀ vn, (res.Header.Values k).getLast? = some vn → (passthrough res h).Values k = [vn]) ∧
      (res.Header.Values k = [] → (passthrough res h).Values k = h.Values k) := by
  have hmem : canonicalMIMEHeaderKey k ∈ streamRespHeaders.map canonicalMIMEHeaderKey :=
    List.mem_map_of_mem _ hk
  have happ := passthrough_apply res h (canonicalMIMEHeaderKey k)
  simp only [hmem, if_true] at happ
  constructor
  · intro vn hvn
    have hvn2 : ((res.Header (canonicalMIMEHeaderKey k)).getD []).getLast? = some vn := hvn
    rw [hvn2] at happ
    simp only [Header.Values, happ, Option.getD_some]
  · intro hnil
    have hnil2 : (res.Header (canonicalMIMEHeaderKey k)).getD [] = [] := hnil
    rw [hnil2] at happ
    simp only [Header.Values, happ, List.getLast?_nil]

/-- Witness for C10: the origin repeats `Content-Type`; the client map holds
the last value only, and `ETag`, which the origin does not send, stays absent. -/
theorem passthrough_keeps_last_value_witness :
    repeatedTypeResponse.Header.Values "Content-Type" = ["text/plain", "image/png"] ∧
      (passthrough repeatedTypeResponse Header.empty).Values "Content-Type" = ["image/png"] ∧
      (passthrough repeatedTypeResponse Header.empty).Values "ETag" = [] :=
  ⟨by decide,
    (passthrough_keeps_last_value repeatedTypeResponse Header.empty "Content-Type"
      (by decide)).1 "image/png" (by decide),
    by decide⟩

end Stream
